import Mathlib

/-!
Verification of the foxglove migration runner
(`foxglove/db/migrations.py`): a shallow embedding of `run_migrations`
and `run_patch` over an explicit database/transaction state, followed by
theorems about the orchestrator's atomicity, dry-run, locking,
idempotence and executor behaviour.
-/

set_option linter.unusedVariables false

namespace Foxglove

/-- Value returned by a patch body (a Python value: we only need to
distinguish `None` from non-`None` values, and carry a printable form). -/
inductive PyValue
  | none
  | str (s : String)
  | int (n : Int)
  | bool (b : Bool)
deriving DecidableEq, Repr

/-- How one call of a patch body ends: it either runs to completion with a
return value, or raises a fault (of any kind, represented by its message). -/
inductive BodyOutcome
  | completes (v : PyValue)
  | raises (exc : String)
deriving DecidableEq, Repr

/-- `true` exactly when the body ran to completion without raising. -/
def BodyOutcome.isCompletes : BodyOutcome → Bool
  | .completes _ => true
  | .raises _ => false

/-- Whether the body is a plain function or a coroutine function
(`asyncio.iscoroutinefunction` distinguishes the two in the source). -/
inductive CallStyle
  | sync
  | coroutine
deriving DecidableEq, Repr

/-- The keyword arguments `run_patch` builds for the patch body:
`dict(conn=conn, live=live, args={'__auto_migrations__': 'true'}, logger=logger)`. -/
structure KwArgs where
  conn : Nat
  live : Bool
  args : List (String × String)
  hasLogger : Bool
deriving DecidableEq, Repr

/-- Modelled from the spec: the patch `body` is external code supplied by the
patch registry (`foxglove/db/patches.py` is not part of the core under
verification).  It accepts the keyword arguments and the current
patch-visible side-effect state, and either completes with a value or
raises, possibly having mutated that state; it is either a plain function
or a coroutine function.  The function also carries its `__name__`. -/
structure PatchBody where
  style : CallStyle
  name : String
  run : KwArgs → List String → BodyOutcome × List String

/-- Modelled from the spec: a patch descriptor from the external patch
registry — the callable plus `auto_ref` (empty string = absent, i.e. not
eligible for automatic migration) and the optional `auto_ref_sql_section`
name (empty string = absent). -/
structure Patch where
  func : PatchBody
  auto_ref : String
  auto_ref_sql_section : String

/-- Modelled from the spec: `get_sql_section(name, sql)` — the SQL Section
Provider: given a section name and the settings' SQL source, return the
named section's text; a missing section is a fatal error that propagates. -/
def get_sql_section (name : String) (sql : List (String × String)) : Except String String :=
  match sql.find? (fun kv => kv.1 = name) with
  | some kv => .ok kv.2
  | none => .error ("SQL section not found: " ++ name)

/-- One row of the `migrations` ledger table; the four columns form the
uniqueness tuple of the `unique (...)` constraint (the server-assigned
`id` and `ts` columns play no role in the claims). -/
structure LedgerRow where
  patch_name : String
  auto_ref : String
  sql_section_name : String
  sql_section_content : String
deriving DecidableEq, Repr

/-- The database as one orchestration call sees it: whether the
`migrations` table exists, its rows, and an abstract record of the side
effects patch bodies have performed (everything inside one transaction is
rolled back together). -/
structure Db where
  migrationsTableExists : Bool
  ledger : List LedgerRow
  userState : List String
deriving DecidableEq, Repr

/-- The process-wide `glove.pg` handle: absent (`getattr(glove, 'pg', None)`
yields `None`), a normal pool, or the `DummyPgPool` wrapper around the
migration transaction's connection. -/
inductive GloveHandle
  | noneH
  | pool (n : Nat)
  | dummy (conn : Nat)
deriving DecidableEq, Repr

/-- The observable world: committed database state plus the global handle. -/
structure World where
  db : Db
  glovePg : GloveHandle
deriving DecidableEq, Repr

/-- The part of `BaseSettings` the runner reads: the SQL source holding
named sections. -/
structure Settings where
  sql : List (String × String)

/-- The external environment of one call: the settings, whether the
non-blocking `lock table migrations nowait` can be acquired (false when
another transaction holds the table lock), and the id of the connection
`AsyncPgContext` hands out. -/
structure Env where
  settings : Settings
  lockAvailable : Bool
  connId : Nat

/-- Python's `'{:-^50}'.format(s)`: centre `s` in a field of `width`
dashes, the extra dash (odd padding) going to the right. -/
def centerDash (width : Nat) (s : String) : String :=
  if width ≤ s.length then s
  else
    let pad := width - s.length
    let l := pad / 2
    String.mk (List.replicate l '-') ++ s ++ String.mk (List.replicate (pad - l) '-')

/-- Printable form of a patch body's return value (`'result: %s'`). -/
def pyStr : PyValue → String
  | .none => "None"
  | .str s => s
  | .int n => toString n
  | .bool b => if b then "True" else "False"

/-- The keyword arguments `run_patch` always passes to the body:
connection, liveness flag, the argument mapping with the
automatic-migration marker, and the logger. -/
def migrationKwargs (conn : Nat) (live : Bool) : KwArgs :=
  { conn := conn, live := live
    args := [("__auto_migrations__", "true")]
    hasLogger := true }

/-- Result of `run_patch`: the success flag it returns, the patch-visible
state after the body ran, and the log lines it emitted. -/
structure PatchRun where
  successful : Bool
  userState : List String
  log : List String
deriving Repr

/-- `run_patch(conn, patch, name, live)`: build the kwargs, log the start
banner, call the body (awaiting it when it is a coroutine function, calling
it directly otherwise — either way running it to completion), log the
result when it is not `None` and the succeeded banner, or catch any raised
fault, log the failed banner and the diagnostic line, and return `False`. -/
def run_patch (conn : Nat) (patch : Patch) (name : String) (live : Bool)
    (us : List String) : PatchRun :=
  let kwargs := migrationKwargs conn live
  let startLog := centerDash 50 (" running " ++ name ++ " ")
  let outcome :=
    match patch.func.style with
    | .coroutine => patch.func.run kwargs us
    | .sync => patch.func.run kwargs us
  match outcome with
  | (.completes v, us2) =>
      { successful := true
        userState := us2
        log := [startLog]
          ++ (if v = PyValue.none then [] else ["result: " ++ pyStr v])
          ++ [centerDash 50 (" " ++ name ++ " succeeded ")] }
  | (.raises _, us2) =>
      { successful := false
        userState := us2
        log := [startLog, centerDash 50 (" " ++ name ++ " failed "),
                "Error running " ++ patch.func.name ++ " migration patch"] }

/-- The SQL-section content the orchestrator resolves for a patch:
`get_sql_section(patch.auto_ref_sql_section, settings.sql)` when the patch
names a section, `None` otherwise; a lookup failure propagates. -/
def resolvedContent (settings : Settings) (patch : Patch) :
    Except String (Option String) :=
  if patch.auto_ref_sql_section ≠ "" then
    (get_sql_section patch.auto_ref_sql_section settings.sql).map some
  else
    .ok none

/-- The ledger row the conflict-skip insert writes for a patch, given the
resolved section content: `patch.auto_ref_sql_section or '-'` and
`sql_section_content or '-'` normalise empty/absent values to the sentinel. -/
def rowFor (patch : Patch) (content : Option String) : LedgerRow :=
  { patch_name := patch.func.name
    auto_ref := patch.auto_ref
    sql_section_name :=
      if patch.auto_ref_sql_section = "" then "-" else patch.auto_ref_sql_section
    sql_section_content :=
      match content with
      | none => "-"
      | some c => if c = "" then "-" else c }

/-- The mutable state of the orchestrator's per-patch loop: the
transaction's working view of the database, the applied and up-to-date
counters, and the log so far. -/
structure LoopState where
  work : Db
  count : Nat
  up_to_date : Nat
  log : List String

/-- What `run_migrations` produces: the returned count, or the fault that
propagated out of SQL-section resolution. -/
inductive MigResult
  | ok (count : Nat)
  | err (msg : String)
deriving DecidableEq, Repr

/-- Full outcome of one `run_migrations` call: its result, the world after
the call (committed database plus `glove.pg`), and the log. -/
structure MigOutcome where
  result : MigResult
  world : World
  log : List String

/-- How the per-patch loop ends: all patches processed (the orchestrator
then commits or rolls back), or an early exit — patch failure (rollback,
restore `glove.pg`, return 0) or a resolution fault (the transaction is
rolled back when the connection context closes, but `glove.pg` is left
pointing at the migration connection). -/
inductive LoopResult
  | done (s : LoopState)
  | aborted (o : MigOutcome)

/-- The `for patch in migration_patches:` loop of `run_migrations`:
resolve the section content, attempt the conflict-skip insert (skip and
count up-to-date when the identity tuple already has a row), otherwise run
the patch, rolling the whole batch back on failure. `committed` is the
database as it stands outside the transaction; `default_pg` the saved
`glove.pg`. -/
def migLoop (env : Env) (live : Bool) (committed : Db) (default_pg : GloveHandle) :
    List Patch → LoopState → LoopResult
  | [], s => .done s
  | patch :: rest, s =>
    let patch_name := patch.func.name
    match resolvedContent env.settings patch with
    | .error e =>
        .aborted { result := .err e
                   world := { db := committed, glovePg := .dummy env.connId }
                   log := s.log }
    | .ok content =>
      let row := rowFor patch content
      if row ∈ s.work.ledger then
        migLoop env live committed default_pg rest
          { s with up_to_date := s.up_to_date + 1 }
      else
        let work1 := { s.work with ledger := s.work.ledger ++ [row] }
        let pr := run_patch env.connId patch patch_name live work1.userState
        let work2 := { work1 with userState := pr.userState }
        if pr.successful then
          migLoop env live committed default_pg rest
            { work := work2, count := s.count + 1, up_to_date := s.up_to_date
              log := s.log ++ pr.log }
        else
          .aborted { result := .ok 0
                     world := { db := committed, glovePg := default_pg }
                     log := s.log ++ pr.log ++
                       ["patch failed, rolling back all " ++ toString s.count ++
                        " migration patches in this session"] }

/-- `run_migrations(settings, patches, live)`: filter to patches with a
non-empty `auto_ref` and return 0 at once when none remain; otherwise open
one connection and one transaction, create the ledger table if missing,
attempt the non-blocking table lock (on contention roll back and return 0),
save and swap `glove.pg`, run the per-patch loop, restore `glove.pg`, and
commit when `live` else roll back, returning the applied count. -/
def run_migrations (env : Env) (patches : List Patch) (live : Bool)
    (w : World) : MigOutcome :=
  let migration_patches := patches.filter (fun p => p.auto_ref ≠ "")
  if migration_patches.isEmpty then
    { result := .ok 0, world := w, log := [] }
  else
    let work0 := { w.db with migrationsTableExists := true }
    if env.lockAvailable = false then
      { result := .ok 0, world := w
        log := ["another transaction has locked migrations, skipping migrations here"] }
    else
      let default_pg := w.glovePg
      let log0 :=
        ["checking " ++ toString migration_patches.length ++ " migration patches..."]
      match migLoop env live w.db default_pg migration_patches
          { work := work0, count := 0, up_to_date := 0, log := log0 } with
      | .aborted o => o
      | .done s =>
        if live then
          { result := .ok s.count
            world := { db := s.work, glovePg := default_pg }
            log := s.log ++
              [toString s.count ++ " migration patches run, " ++
               toString s.up_to_date ++ " already up to date ✓"] }
        else
          { result := .ok s.count
            world := { db := w.db, glovePg := default_pg }
            log := s.log ++
              [toString s.count ++ " migration patches run, " ++
               toString s.up_to_date ++
               " already up to date, not live rolling back"] }

/-- The ledger row the orchestrator will write for a patch in a given
environment (under `resolvesOk` this is exactly the row `migLoop` inserts). -/
def rowOf (env : Env) (patch : Patch) : LedgerRow :=
  match resolvedContent env.settings patch with
  | .ok c => rowFor patch c
  | .error _ => rowFor patch none

/-- The patch carries a non-empty `auto_ref`, so the automatic-migration
filter keeps it. -/
def eligible (p : Patch) : Prop := p.auto_ref ≠ ""

/-- SQL-section resolution succeeds for the patch in this environment. -/
def resolvesOk (env : Env) (p : Patch) : Prop :=
  ∃ c, resolvedContent env.settings p = .ok c

/-- The patch body never raises, whatever arguments and state it is given. -/
def alwaysCompletes (p : Patch) : Prop :=
  ∀ kw us, ((p.func.run kw us).1).isCompletes = true

/-- The patch body raises on every invocation. -/
def alwaysRaises (p : Patch) : Prop :=
  ∀ kw us, ((p.func.run kw us).1).isCompletes = false

lemma run_patch_eval (conn : Nat) (patch : Patch) (name : String) (live : Bool)
    (us : List String) :
    (run_patch conn patch name live us).successful =
        ((patch.func.run (migrationKwargs conn live) us).1).isCompletes ∧
      (run_patch conn patch name live us).userState =
        (patch.func.run (migrationKwargs conn live) us).2 := by
  rcases patch with ⟨⟨st, nm, f⟩, ar, sec⟩
  cases st <;>
    · unfold run_patch
      dsimp only
      rcases h : f (migrationKwargs conn live) us with ⟨o, us2⟩
      cases o <;> simp [BodyOutcome.isCompletes]

lemma run_patch_successful (conn : Nat) (patch : Patch) (name : String) (live : Bool)
    (us : List String) :
    (run_patch conn patch name live us).successful =
      ((patch.func.run (migrationKwargs conn live) us).1).isCompletes :=
  (run_patch_eval conn patch name live us).1

lemma run_patch_userState (conn : Nat) (patch : Patch) (name : String) (live : Bool)
    (us : List String) :
    (run_patch conn patch name live us).userState =
      (patch.func.run (migrationKwargs conn live) us).2 :=
  (run_patch_eval conn patch name live us).2

lemma rowOf_eq_rowFor {env : Env} {p : Patch} {c : Option String}
    (hc : resolvedContent env.settings p = .ok c) :
    rowOf env p = rowFor p c := by
  unfold rowOf; rw [hc]

lemma migLoop_cons_err {env : Env} {live : Bool} {committed : Db}
    {dpg : GloveHandle} {p : Patch} {rest : List Patch} {s : LoopState}
    {e : String} (he : resolvedContent env.settings p = .error e) :
    migLoop env live committed dpg (p :: rest) s =
      .aborted { result := .err e
                 world := { db := committed, glovePg := .dummy env.connId }
                 log := s.log } := by
  rw [migLoop, he]

lemma migLoop_cons_dup {env : Env} {live : Bool} {committed : Db}
    {dpg : GloveHandle} {p : Patch} {rest : List Patch} {s : LoopState}
    {c : Option String} (hc : resolvedContent env.settings p = .ok c)
    (hmem : rowFor p c ∈ s.work.ledger) :
    migLoop env live committed dpg (p :: rest) s =
      migLoop env live committed dpg rest
        { s with up_to_date := s.up_to_date + 1 } := by
  rw [migLoop, hc]
  dsimp only
  rw [if_pos hmem]

lemma migLoop_cons_fresh_success {env : Env} {live : Bool} {committed : Db}
    {dpg : GloveHandle} {p : Patch} {rest : List Patch} {s : LoopState}
    {c : Option String} (hc : resolvedContent env.settings p = .ok c)
    (hmem : rowFor p c ∉ s.work.ledger)
    (hsucc : (run_patch env.connId p p.func.name live s.work.userState).successful
      = true) :
    migLoop env live committed dpg (p :: rest) s =
      migLoop env live committed dpg rest
        { work := { s.work with
                      ledger := s.work.ledger ++ [rowFor p c],
                      userState :=
                        (run_patch env.connId p p.func.name live s.work.userState).userState }
          count := s.count + 1
          up_to_date := s.up_to_date
          log := s.log ++ (run_patch env.connId p p.func.name live s.work.userState).log } := by
  rw [migLoop, hc]
  dsimp only
  rw [if_neg hmem, if_pos hsucc]

lemma migLoop_cons_fresh_fail {env : Env} {live : Bool} {committed : Db}
    {dpg : GloveHandle} {p : Patch} {rest : List Patch} {s : LoopState}
    {c : Option String} (hc : resolvedContent env.settings p = .ok c)
    (hmem : rowFor p c ∉ s.work.ledger)
    (hfail : (run_patch env.connId p p.func.name live s.work.userState).successful
      = false) :
    migLoop env live committed dpg (p :: rest) s =
      .aborted { result := .ok 0
                 world := { db := committed, glovePg := dpg }
                 log := s.log ++
                   (run_patch env.connId p p.func.name live s.work.userState).log ++
                   ["patch failed, rolling back all " ++ toString s.count ++
                    " migration patches in this session"] } := by
  rw [migLoop, hc]
  dsimp only
  rw [if_neg hmem, if_neg (by rw [hfail]; exact Bool.false_ne_true)]

/-- Running the loop over a prefix of fresh, resolvable, always-succeeding
patches inserts exactly their rows, counts them all as applied, and
continues with the rest of the list. -/
lemma migLoop_front (env : Env) (live : Bool) (committed : Db)
    (dpg : GloveHandle) (pre rest : List Patch) (s : LoopState)
    (hres : ∀ p ∈ pre, resolvesOk env p)
    (hcomp : ∀ p ∈ pre, alwaysCompletes p)
    (hnd : (pre.map (rowOf env)).Nodup)
    (hfresh : ∀ p ∈ pre, rowOf env p ∉ s.work.ledger) :
    ∃ us2 logTail,
      migLoop env live committed dpg (pre ++ rest) s =
        migLoop env live committed dpg rest
          { work := { s.work with
                        ledger := s.work.ledger ++ pre.map (rowOf env),
                        userState := us2 }
            count := s.count + pre.length
            up_to_date := s.up_to_date
            log := s.log ++ logTail } := by
  induction pre generalizing s with
  | nil =>
      refine ⟨s.work.userState, [], ?_⟩
      simp
  | cons p pre' ih =>
      obtain ⟨c, hc⟩ := hres p (by simp)
      have hrow : rowOf env p = rowFor p c := rowOf_eq_rowFor hc
      have hmem : rowFor p c ∉ s.work.ledger := by
        rw [← hrow]; exact hfresh p (by simp)
      have hsucc :
          (run_patch env.connId p p.func.name live s.work.userState).successful
            = true := by
        rw [run_patch_successful]
        exact hcomp p (by simp) _ _
      rw [List.cons_append, migLoop_cons_fresh_success hc hmem hsucc]
      have hnd' : (pre'.map (rowOf env)).Nodup := by
        simpa using hnd.of_cons
      have hnotpre : rowOf env p ∉ pre'.map (rowOf env) := by
        have h0 := hnd
        simp only [List.map_cons, List.nodup_cons] at h0
        exact h0.1
      have hres' : ∀ q ∈ pre', resolvesOk env q :=
        fun q hq => hres q (List.mem_cons_of_mem p hq)
      have hcomp' : ∀ q ∈ pre', alwaysCompletes q :=
        fun q hq => hcomp q (List.mem_cons_of_mem p hq)
      have hfresh' : ∀ q ∈ pre',
          rowOf env q ∉ s.work.ledger ++ [rowFor p c] := by
        intro q hq hin
        rcases List.mem_append.mp hin with h | h
        · exact hfresh q (List.mem_cons_of_mem p hq) h
        · have hq2 : rowOf env q = rowFor p c := List.mem_singleton.mp h
          rw [← hrow] at hq2
          exact hnotpre (hq2 ▸ List.mem_map_of_mem (rowOf env) hq)
      obtain ⟨us2, tail2, heq⟩ :=
        ih { work := { s.work with
                         ledger := s.work.ledger ++ [rowFor p c],
                         userState :=
                           (run_patch env.connId p p.func.name live
                             s.work.userState).userState }
             count := s.count + 1
             up_to_date := s.up_to_date
             log := s.log ++
               (run_patch env.connId p p.func.name live s.work.userState).log }
          hres' hcomp' hnd' hfresh'
      refine ⟨us2,
        (run_patch env.connId p p.func.name live s.work.userState).log ++ tail2, ?_⟩
      rw [heq]
      refine congrArg (migLoop env live committed dpg rest) ?_
      simp only [LoopState.mk.injEq, Db.mk.injEq, List.map_cons, List.length_cons]
      repeat' apply And.intro
      all_goals first
        | trivial
        | omega
        | simp [hrow, List.append_assoc]

/-- Running the loop over patches whose rows are already all in the working
ledger skips every one of them: the state is unchanged except that each is
counted as up to date. -/
lemma migLoop_all_dup (env : Env) (live : Bool) (committed : Db)
    (dpg : GloveHandle) (l : List Patch) (s : LoopState)
    (hres : ∀ p ∈ l, resolvesOk env p)
    (hmem : ∀ p ∈ l, rowOf env p ∈ s.work.ledger) :
    migLoop env live committed dpg l s =
      .done { s with up_to_date := s.up_to_date + l.length } := by
  induction l generalizing s with
  | nil =>
      rfl
  | cons p l' ih =>
      obtain ⟨c, hc⟩ := hres p (by simp)
      have hrow : rowOf env p = rowFor p c := rowOf_eq_rowFor hc
      have hm : rowFor p c ∈ s.work.ledger := by
        rw [← hrow]; exact hmem p (by simp)
      have hres' : ∀ q ∈ l', resolvesOk env q :=
        fun q hq => hres q (List.mem_cons_of_mem p hq)
      have hmem' : ∀ q ∈ l',
          rowOf env q ∈ ({ s with up_to_date := s.up_to_date + 1 } :
            LoopState).work.ledger :=
        fun q hq => hmem q (List.mem_cons_of_mem p hq)
      rw [migLoop_cons_dup hc hm,
        ih { s with up_to_date := s.up_to_date + 1 } hres' hmem']
      refine congrArg LoopResult.done ?_
      simp only [LoopState.mk.injEq, List.length_cons]
      repeat' apply And.intro
      all_goals first | trivial | omega

lemma filter_eligible_eq_self {patches : List Patch}
    (h : ∀ p ∈ patches, p.auto_ref ≠ "") :
    patches.filter (fun p => p.auto_ref ≠ "") = patches := by
  refine List.filter_eq_self.mpr ?_
  intro p hp
  simpa using h p hp

/-- A live or dry run over a non-empty list of eligible, resolvable, fresh,
always-succeeding patches applies them all: it returns their number, and
commits exactly their ledger rows when live while leaving the world
untouched when not. -/
lemma run_migrations_all_fresh (env : Env) (patches : List Patch) (live : Bool)
    (w : World)
    (hlock : env.lockAvailable = true)
    (hne : patches ≠ [])
    (helig : ∀ p ∈ patches, eligible p)
    (hres : ∀ p ∈ patches, resolvesOk env p)
    (hcomp : ∀ p ∈ patches, alwaysCompletes p)
    (hnd : (patches.map (rowOf env)).Nodup)
    (hfresh : ∀ p ∈ patches, rowOf env p ∉ w.db.ledger) :
    ∃ us2,
      (run_migrations env patches live w).result = .ok patches.length ∧
      (run_migrations env patches live w).world =
        (if live then
          { db := { migrationsTableExists := true
                    ledger := w.db.ledger ++ patches.map (rowOf env)
                    userState := us2 }
            glovePg := w.glovePg }
         else w) := by
  obtain ⟨us2, tail, heq⟩ :=
    migLoop_front env live w.db w.glovePg patches []
      { work := { w.db with migrationsTableExists := true }
        count := 0
        up_to_date := 0
        log := ["checking " ++ toString patches.length ++ " migration patches..."] }
      hres hcomp hnd hfresh
  rw [List.append_nil] at heq
  refine ⟨us2, ?_⟩
  have hfe : patches.filter (fun p => p.auto_ref ≠ "") = patches :=
    filter_eligible_eq_self helig
  have hie : patches.isEmpty = false := by
    cases patches with
    | nil => exact absurd rfl hne
    | cons a l => rfl
  unfold run_migrations
  simp only [hfe, hie, Bool.false_eq_true, if_false, hlock, Bool.true_eq_false]
  rw [heq, migLoop]
  cases live with
  | true =>
      refine ⟨by simp, ?_⟩
      simp
  | false =>
      refine ⟨by simp, ?_⟩
      simp

lemma isEmpty_append_cons {l1 : List Patch} {a : Patch} {l2 : List Patch} :
    (l1 ++ a :: l2).isEmpty = false := by
  cases l1 <;> rfl

/-- A patch body that completes, returning the string `hello` (as in the
repository's `test_run_migrations_error` fixture). -/
def okBody : PatchBody :=
  { style := .sync
    name := "ok_patch"
    run := fun kw us => (.completes (.str "hello"), us ++ ["org inserted"]) }

/-- An eligible patch with a succeeding body and no SQL section. -/
def okPatch : Patch :=
  { func := okBody, auto_ref := "foobar", auto_ref_sql_section := "" }

/-- A coroutine patch body that always raises. -/
def errorBody : PatchBody :=
  { style := .coroutine
    name := "error_patch"
    run := fun kw us => (.raises "ValueError: broken", us) }

/-- An eligible patch whose body always raises. -/
def errorPatch : Patch :=
  { func := errorBody, auto_ref := "foobar", auto_ref_sql_section := "" }

/-- A manual-only patch: its `auto_ref` is empty. -/
def manualPatch : Patch :=
  { func := okBody, auto_ref := "", auto_ref_sql_section := "" }

/-- An environment with no SQL sections and an uncontended lock. -/
def env0 : Env :=
  { settings := { sql := [] }, lockAvailable := true, connId := 1 }

/-- An environment in which another holder has the migrations table lock. -/
def lockedEnv : Env :=
  { settings := { sql := [] }, lockAvailable := false, connId := 1 }

/-- A fresh world: no ledger table, no rows, no side effects, no `glove.pg`. -/
def w0 : World :=
  { db := { migrationsTableExists := false, ledger := [], userState := [] }
    glovePg := .noneH }

/-- Claim C3 — no-op fast path: when no patch in the list has a non-empty
`auto_ref`, `run_migrations` returns 0 at once with the world untouched and
an empty log: no connection, transaction or database call happens. -/
theorem noop_fast_path (env : Env) (patches : List Patch) (live : Bool)
    (w : World) (h : ∀ p ∈ patches, p.auto_ref = "") :
    run_migrations env patches live w =
      { result := .ok 0, world := w, log := [] } := by
  have hfe : patches.filter (fun p => p.auto_ref ≠ "") = [] := by
    refine List.filter_eq_nil_iff.mpr ?_
    intro p hp
    simp [h p hp]
  unfold run_migrations
  rw [hfe]
  rfl

/-- Witness for C3 at a concrete manual-only patch list. -/
theorem noop_fast_path_witness :
    run_migrations env0 [manualPatch] true w0 =
      { result := .ok 0, world := w0, log := [] } :=
  noop_fast_path env0 [manualPatch] true w0 (by
    intro p hp
    rw [List.mem_singleton] at hp
    subst hp
    rfl)

/-- Claim C4 — lock contention: when the non-blocking lock on the
migrations table is unavailable, `run_migrations` returns 0 without
raising, and the world is unchanged — in particular the ledger-table
creation does not persist as a side effect of the call. -/
theorem lock_contention_skips (env : Env) (patches : List Patch)
    (live : Bool) (w : World) (hlock : env.lockAvailable = false) :
    (run_migrations env patches live w).result = .ok 0 ∧
    (run_migrations env patches live w).world = w := by
  unfold run_migrations
  dsimp only
  cases hie : (patches.filter (fun p => p.auto_ref ≠ "")).isEmpty with
  | true => exact ⟨rfl, rfl⟩
  | false =>
      rw [hlock]
      exact ⟨rfl, rfl⟩

/-- Witness for C4 at a concrete contended environment. -/
theorem lock_contention_skips_witness :
    (run_migrations lockedEnv [okPatch] true w0).result = .ok 0 ∧
    (run_migrations lockedEnv [okPatch] true w0).world = w0 :=
  lock_contention_skips lockedEnv [okPatch] true w0 rfl

/-- Claim C2 — dry run: with `live = false` and any list of eligible,
fresh, resolvable, always-succeeding patches, the call returns the number
of patches (the count that would have been applied) but the world is
unchanged: nothing is committed, so the ledger table exists afterwards
exactly when it existed before. -/
theorem dry_run_rolls_back (env : Env) (patches : List Patch) (w : World)
    (hlock : env.lockAvailable = true)
    (helig : ∀ p ∈ patches, eligible p)
    (hres : ∀ p ∈ patches, resolvesOk env p)
    (hcomp : ∀ p ∈ patches, alwaysCompletes p)
    (hnd : (patches.map (rowOf env)).Nodup)
    (hfresh : ∀ p ∈ patches, rowOf env p ∉ w.db.ledger) :
    (run_migrations env patches false w).result = .ok patches.length ∧
    (run_migrations env patches false w).world = w ∧
    ((run_migrations env patches false w).world).db.migrationsTableExists =
      w.db.migrationsTableExists := by
  by_cases hne : patches = []
  · subst hne
    unfold run_migrations
    simp
  · obtain ⟨us2, hr, hw⟩ :=
      run_migrations_all_fresh env patches false w hlock hne helig hres hcomp
        hnd hfresh
    rw [if_neg Bool.false_ne_true] at hw
    exact ⟨hr, hw, by rw [hw]⟩

/-- Witness for C2 at a concrete one-patch list. -/
theorem dry_run_rolls_back_witness :
    (run_migrations env0 [okPatch] false w0).result = .ok 1 ∧
    (run_migrations env0 [okPatch] false w0).world = w0 ∧
    ((run_migrations env0 [okPatch] false w0).world).db.migrationsTableExists =
      w0.db.migrationsTableExists :=
  dry_run_rolls_back env0 [okPatch] w0 rfl
    (by intro p hp; rw [List.mem_singleton] at hp; subst hp
        show okPatch.auto_ref ≠ ""
        decide)
    (by intro p hp; rw [List.mem_singleton] at hp; subst hp; exact ⟨none, rfl⟩)
    (by intro p hp; rw [List.mem_singleton] at hp; subst hp; intro kw us; rfl)
    (by simp)
    (by intro p hp; simp [w0])

/-- Claim C1 — atomicity on patch failure: when the run reaches an
eligible patch whose body raises (all earlier eligible patches being fresh
and succeeding), `run_migrations` rolls the entire transaction back and
returns 0: no ledger row of the call and no patch side effect persists,
the world is exactly as before the call. -/
theorem atomicity_on_patch_failure (env : Env) (pre : List Patch) (f : Patch)
    (post : List Patch) (live : Bool) (w : World)
    (hlock : env.lockAvailable = true)
    (helig : ∀ p ∈ pre, eligible p) (hf : eligible f)
    (hres : ∀ p ∈ pre, resolvesOk env p) (hrf : resolvesOk env f)
    (hcomp : ∀ p ∈ pre, alwaysCompletes p) (hraise : alwaysRaises f)
    (hnd : ((pre ++ [f]).map (rowOf env)).Nodup)
    (hfresh : ∀ p ∈ pre ++ [f], rowOf env p ∉ w.db.ledger) :
    (run_migrations env (pre ++ f :: post) live w).result = .ok 0 ∧
    (run_migrations env (pre ++ f :: post) live w).world = w := by
  have hfe : (pre ++ f :: post).filter (fun p => p.auto_ref ≠ "") =
      pre ++ f :: post.filter (fun p => p.auto_ref ≠ "") := by
    rw [List.filter_append, filter_eligible_eq_self helig,
      List.filter_cons_of_pos]
    simpa using hf
  have hnd2 : ((pre.map (rowOf env)) ++ ([f].map (rowOf env))).Nodup := by
    rw [← List.map_append]; exact hnd
  obtain ⟨hndpre, hndf, hdisj⟩ := List.nodup_append.mp hnd2
  have hnotpre : rowOf env f ∉ pre.map (rowOf env) := by
    intro hin
    exact (hdisj hin) (by simp)
  obtain ⟨us2, tail, heq⟩ :=
    migLoop_front env live w.db w.glovePg pre
      (f :: post.filter (fun p => p.auto_ref ≠ ""))
      { work := { w.db with migrationsTableExists := true }
        count := 0
        up_to_date := 0
        log := ["checking " ++
          toString (pre ++ f :: post.filter (fun p => p.auto_ref ≠ "")).length ++
          " migration patches..."] }
      hres hcomp hndpre
      (fun p hp => hfresh p (List.mem_append_left _ hp))
  obtain ⟨cf, hcf⟩ := hrf
  have hrowf : rowOf env f = rowFor f cf := rowOf_eq_rowFor hcf
  have hmemf : rowFor f cf ∉ w.db.ledger ++ pre.map (rowOf env) := by
    rw [← hrowf]
    intro hin
    rcases List.mem_append.mp hin with h | h
    · exact hfresh f (List.mem_append_right _ (by simp)) h
    · exact hnotpre h
  have hfailf :
      (run_patch env.connId f f.func.name live us2).successful = false := by
    rw [run_patch_successful]
    exact hraise _ _
  unfold run_migrations
  dsimp only
  rw [hfe, isEmpty_append_cons, if_neg Bool.false_ne_true, hlock,
    if_neg (by decide : ¬(true = false)), heq,
    migLoop_cons_fresh_fail hcf ?hm ?hf]
  case hm => exact hmemf
  case hf => exact hfailf
  exact ⟨rfl, rfl⟩

/-- Witness for C1: a succeeding patch followed by a raising patch, live. -/
theorem atomicity_on_patch_failure_witness :
    (run_migrations env0 ([okPatch] ++ errorPatch :: []) true w0).result =
      .ok 0 ∧
    (run_migrations env0 ([okPatch] ++ errorPatch :: []) true w0).world = w0 :=
  atomicity_on_patch_failure env0 [okPatch] errorPatch [] true w0 rfl
    (by intro p hp; rw [List.mem_singleton] at hp; subst hp
        show okPatch.auto_ref ≠ ""
        decide)
    (by show errorPatch.auto_ref ≠ ""
        decide)
    (by intro p hp; rw [List.mem_singleton] at hp; subst hp; exact ⟨none, rfl⟩)
    ⟨none, rfl⟩
    (by intro p hp; rw [List.mem_singleton] at hp; subst hp; intro kw us; rfl)
    (fun kw us => rfl)
    (by decide)
    (by intro p hp; simp [w0])

/-- A live run in which every patch's identity row is already in the ledger
(and the ledger table already exists) applies nothing: it returns 0, leaves
the world exactly as it was, and logs only the check line and the
up-to-date summary — no patch banner, so no body ran. -/
lemma run_migrations_all_dup_live (env : Env) (patches : List Patch) (w : World)
    (hlock : env.lockAvailable = true)
    (hne : patches ≠ [])
    (helig : ∀ p ∈ patches, eligible p)
    (hres : ∀ p ∈ patches, resolvesOk env p)
    (hmem : ∀ p ∈ patches, rowOf env p ∈ w.db.ledger)
    (htbl : w.db.migrationsTableExists = true) :
    run_migrations env patches true w =
      { result := .ok 0
        world := w
        log := ["checking " ++ toString patches.length ++ " migration patches...",
                "0 migration patches run, " ++ toString patches.length ++
                " already up to date ✓"] } := by
  have hfe : patches.filter (fun p => p.auto_ref ≠ "") = patches :=
    filter_eligible_eq_self helig
  have hie : patches.isEmpty = false := by
    cases patches with
    | nil => exact absurd rfl hne
    | cons a l => rfl
  have hdup := migLoop_all_dup env true w.db w.glovePg patches
    { work := { w.db with migrationsTableExists := true }
      count := 0
      up_to_date := 0
      log := ["checking " ++ toString patches.length ++ " migration patches..."] }
    hres hmem
  have hdbeq : ({ w.db with migrationsTableExists := true } : Db) = w.db := by
    rw [← htbl]
  have h0 : (toString (0 : Nat)) ++ " migration patches run, " =
      "0 migration patches run, " := rfl
  unfold run_migrations
  dsimp only
  rw [hfe, hie, if_neg Bool.false_ne_true, hlock,
    if_neg (by decide : ¬(true = false)), hdup]
  try dsimp only
  try rw [if_pos rfl]
  try dsimp only
  rw [h0, Nat.zero_add, hdbeq]
  rfl

/-- Claim C5 — idempotence: after a first live run over a non-empty list of
eligible, fresh, pairwise-distinct, resolvable, always-succeeding patches,
a second live call with the same list returns 0, leaves the world — hence
the ledger row count — unchanged, and logs the whole list as already up to
date with no patch banner: no patch body executes, the deduplication
happening solely through the conflict-skip insert finding each identity
row already present. -/
theorem idempotent_second_run (env : Env) (patches : List Patch) (w : World)
    (hlock : env.lockAvailable = true)
    (hne : patches ≠ [])
    (helig : ∀ p ∈ patches, eligible p)
    (hres : ∀ p ∈ patches, resolvesOk env p)
    (hcomp : ∀ p ∈ patches, alwaysCompletes p)
    (hnd : (patches.map (rowOf env)).Nodup)
    (hfresh : ∀ p ∈ patches, rowOf env p ∉ w.db.ledger) :
    (run_migrations env patches true w).result = .ok patches.length ∧
    (run_migrations env patches true
        (run_migrations env patches true w).world).result = .ok 0 ∧
    (run_migrations env patches true
        (run_migrations env patches true w).world).world =
      (run_migrations env patches true w).world ∧
    (run_migrations env patches true
        (run_migrations env patches true w).world).log =
      ["checking " ++ toString patches.length ++ " migration patches...",
       "0 migration patches run, " ++ toString patches.length ++
       " already up to date ✓"] := by
  obtain ⟨us2, h1r, h1w⟩ :=
    run_migrations_all_fresh env patches true w hlock hne helig hres hcomp
      hnd hfresh
  rw [if_pos rfl] at h1w
  have hmem2 : ∀ p ∈ patches,
      rowOf env p ∈ ((run_migrations env patches true w).world).db.ledger := by
    intro p hp
    rw [h1w]
    exact List.mem_append_right _ (List.mem_map_of_mem (rowOf env) hp)
  have htbl2 :
      ((run_migrations env patches true w).world).db.migrationsTableExists
        = true := by
    rw [h1w]
  have h2 := run_migrations_all_dup_live env patches
    ((run_migrations env patches true w).world) hlock hne helig hres
    hmem2 htbl2
  exact ⟨h1r, by rw [h2], by rw [h2], by rw [h2]⟩

/-- Witness for C5: two consecutive live runs over the same one-patch list. -/
theorem idempotent_second_run_witness :
    (run_migrations env0 [okPatch] true w0).result = .ok 1 ∧
    (run_migrations env0 [okPatch] true
        (run_migrations env0 [okPatch] true w0).world).result = .ok 0 ∧
    (run_migrations env0 [okPatch] true
        (run_migrations env0 [okPatch] true w0).world).world =
      (run_migrations env0 [okPatch] true w0).world ∧
    (run_migrations env0 [okPatch] true
        (run_migrations env0 [okPatch] true w0).world).log =
      ["checking " ++ toString (1 : Nat) ++ " migration patches...",
       "0 migration patches run, " ++ toString (1 : Nat) ++
       " already up to date ✓"] :=
  idempotent_second_run env0 [okPatch] w0 rfl (by simp)
    (by intro p hp; rw [List.mem_singleton] at hp; subst hp
        show okPatch.auto_ref ≠ ""
        decide)
    (by intro p hp; rw [List.mem_singleton] at hp; subst hp; exact ⟨none, rfl⟩)
    (by intro p hp; rw [List.mem_singleton] at hp; subst hp; intro kw us; rfl)
    (by simp)
    (by intro p hp; simp [w0])

/-- A trivially succeeding body named `p`, shared by the section fixtures. -/
def noSectionBody : PatchBody :=
  { style := .sync, name := "p", run := fun kw us => (.completes .none, us) }

/-- A patch with no SQL section. -/
def noSectionPatch : Patch :=
  { func := noSectionBody, auto_ref := "r", auto_ref_sql_section := "" }

/-- A patch whose SQL section is literally named `-`. -/
def dashSectionPatch : Patch :=
  { func := noSectionBody, auto_ref := "r", auto_ref_sql_section := "-" }

/-- An environment whose SQL source has a section named `-` whose text is `-`. -/
def dashEnv : Env :=
  { settings := { sql := [("-", "-")] }, lockAvailable := true, connId := 1 }

/-- A patch with a normally named SQL section. -/
def secPatch : Patch :=
  { func := noSectionBody, auto_ref := "r", auto_ref_sql_section := "sec" }

/-- An environment whose section `sec` resolves to the literal text `-`. -/
def secEnv : Env :=
  { settings := { sql := [("sec", "-")] }, lockAvailable := true, connId := 1 }

/-- Claim C6, counterexample: a patch with no SQL section and a patch whose
section is literally named `-` and resolves to the string `-` produce the
same identity tuple — the claimed distinctness fails at this input. -/
theorem identity_sentinel_cex :
    resolvedContent dashEnv.settings dashSectionPatch = .ok (some "-") ∧
    rowOf dashEnv noSectionPatch = rowOf dashEnv dashSectionPatch :=
  ⟨rfl, rfl⟩

/-- Claim C6 (amended): a patch with no SQL section is recorded in the
ledger with the sentinel `sql_section_name = "-"` and
`sql_section_content = "-"` (empty or absent values normalise to the
sentinel), and this identity tuple is distinct from that of a patch
carrying a section whose name is not itself `-` — in particular one whose
content literally resolves to `-`; when the section is literally named `-`
and resolves to `-`, the tuples coincide. -/
theorem identity_sentinel (env : Env) (pA pB : Patch) (w : World)
    (hA : pA.auto_ref_sql_section = "")
    (hAelig : eligible pA)
    (hAcomp : alwaysCompletes pA)
    (hAfresh : rowOf env pA ∉ w.db.ledger)
    (hlock : env.lockAvailable = true)
    (hBsec : pB.auto_ref_sql_section ≠ "")
    (hBdash : pB.auto_ref_sql_section ≠ "-") :
    rowOf env pA =
      { patch_name := pA.func.name
        auto_ref := pA.auto_ref
        sql_section_name := "-"
        sql_section_content := "-" } ∧
    (run_migrations env [pA] true w).world.db.ledger =
      w.db.ledger ++
        [{ patch_name := pA.func.name
           auto_ref := pA.auto_ref
           sql_section_name := "-"
           sql_section_content := "-" }] ∧
    rowOf env pA ≠ rowOf env pB := by
  have hresA : resolvedContent env.settings pA = .ok none := by
    unfold resolvedContent
    rw [hA]
    simp
  have h1 : rowOf env pA =
      { patch_name := pA.func.name
        auto_ref := pA.auto_ref
        sql_section_name := "-"
        sql_section_content := "-" } := by
    rw [rowOf_eq_rowFor hresA]
    unfold rowFor
    rw [hA]
    rfl
  have hBname : (rowOf env pB).sql_section_name = pB.auto_ref_sql_section := by
    unfold rowOf
    cases hc : resolvedContent env.settings pB with
    | ok c =>
        unfold rowFor
        dsimp only
        rw [if_neg hBsec]
    | error e =>
        unfold rowFor
        dsimp only
        rw [if_neg hBsec]
  refine ⟨h1, ?_, ?_⟩
  · obtain ⟨us2, hr, hw⟩ :=
      run_migrations_all_fresh env [pA] true w hlock (by simp)
        (by intro p hp; rw [List.mem_singleton] at hp; subst hp; exact hAelig)
        (by intro p hp; rw [List.mem_singleton] at hp; subst hp
            exact ⟨none, hresA⟩)
        (by intro p hp; rw [List.mem_singleton] at hp; subst hp; exact hAcomp)
        (by simp)
        (by intro p hp; rw [List.mem_singleton] at hp; subst hp; exact hAfresh)
    rw [if_pos rfl] at hw
    rw [hw]
    dsimp only
    rw [List.map_singleton, h1]
  · intro heq
    have hname := congrArg LedgerRow.sql_section_name heq
    rw [h1, hBname] at hname
    exact hBdash hname.symm

/-- Witness for C6 (amended) at the concrete fixtures: a no-section patch
versus a patch whose section `sec` resolves to the text `-`. -/
theorem identity_sentinel_witness :
    rowOf secEnv noSectionPatch =
      { patch_name := noSectionPatch.func.name
        auto_ref := noSectionPatch.auto_ref
        sql_section_name := "-"
        sql_section_content := "-" } ∧
    (run_migrations secEnv [noSectionPatch] true w0).world.db.ledger =
      w0.db.ledger ++
        [{ patch_name := noSectionPatch.func.name
           auto_ref := noSectionPatch.auto_ref
           sql_section_name := "-"
           sql_section_content := "-" }] ∧
    rowOf secEnv noSectionPatch ≠ rowOf secEnv secPatch :=
  identity_sentinel secEnv noSectionPatch secPatch w0 rfl
    (by show noSectionPatch.auto_ref ≠ ""
        decide)
    (fun kw us => rfl)
    (by simp [w0])
    rfl
    (by show secPatch.auto_ref_sql_section ≠ ""
        decide)
    (by show secPatch.auto_ref_sql_section ≠ "-"
        decide)

/-- Claim C7 — executor fault boundary: whatever fault the patch body
raises, `run_patch` catches it, logs the failed banner and the diagnostic
line, and returns a failure outcome — being a total function of the body's
outcome, it never re-raises. -/
theorem executor_fault_boundary (conn : Nat) (p : Patch) (name : String)
    (live : Bool) (us : List String) (exc : String) (us2 : List String)
    (h : p.func.run (migrationKwargs conn live) us = (.raises exc, us2)) :
    (run_patch conn p name live us).successful = false ∧
    (run_patch conn p name live us).log =
      [centerDash 50 (" running " ++ name ++ " "),
       centerDash 50 (" " ++ name ++ " failed "),
       "Error running " ++ p.func.name ++ " migration patch"] := by
  rcases p with ⟨⟨st, nm, f⟩, ar, sec⟩
  cases st <;>
    · unfold run_patch
      dsimp only at h ⊢
      rw [h]
      exact ⟨rfl, rfl⟩

/-- Witness for C7 at the concrete raising patch. -/
theorem executor_fault_boundary_witness :
    (run_patch 1 errorPatch "error_patch" false []).successful = false ∧
    (run_patch 1 errorPatch "error_patch" false []).log =
      [centerDash 50 (" running error_patch "),
       centerDash 50 (" error_patch failed "),
       "Error running error_patch migration patch"] :=
  executor_fault_boundary 1 errorPatch "error_patch" false []
    "ValueError: broken" [] rfl

/-- Claim C8 — executor invocation convention: `run_patch` always invokes
the body with the connection, the liveness flag, a logger, and an argument
mapping containing the automatic-migration marker; whether the body is a
plain function or a coroutine function it is run to full completion, the
outcome of `run_patch` being exactly the judgement of the completed run and
independent of the calling style. -/
theorem executor_invocation_convention (conn : Nat) (p : Patch)
    (name : String) (live : Bool) (us : List String) :
    (migrationKwargs conn live).conn = conn ∧
    (migrationKwargs conn live).live = live ∧
    (migrationKwargs conn live).hasLogger = true ∧
    ("__auto_migrations__", "true") ∈ (migrationKwargs conn live).args ∧
    (run_patch conn p name live us).successful =
      ((p.func.run (migrationKwargs conn live) us).1).isCompletes ∧
    (run_patch conn p name live us).userState =
      (p.func.run (migrationKwargs conn live) us).2 ∧
    ∀ st : CallStyle,
      run_patch conn { p with func := { p.func with style := st } }
          name live us =
        run_patch conn p name live us := by
  refine ⟨rfl, rfl, rfl, List.mem_singleton_self _,
    run_patch_successful conn p name live us,
    run_patch_userState conn p name live us, ?_⟩
  intro st
  rcases p with ⟨⟨st0, nm, f⟩, ar, sec⟩
  cases st <;> cases st0 <;> rfl

/-- Claim C10 — success is determined solely by whether the body raises:
`run_patch` returns `true` exactly when the body completes without
raising; the body's returned value, however falsy or error-like, never
makes the patch count as failed. -/
theorem success_solely_by_raising (conn : Nat) (p : Patch) (name : String)
    (live : Bool) (us : List String) :
    (run_patch conn p name live us).successful =
      ((p.func.run (migrationKwargs conn live) us).1).isCompletes ∧
    ((run_patch conn p name live us).successful = true ↔
      ∃ v us2, p.func.run (migrationKwargs conn live) us =
        (.completes v, us2)) := by
  refine ⟨run_patch_successful conn p name live us, ?_⟩
  rw [run_patch_successful conn p name live us]
  rcases h : p.func.run (migrationKwargs conn live) us with ⟨o, us2⟩
  cases o with
  | completes v =>
      exact ⟨fun _ => ⟨v, us2, rfl⟩, fun _ => rfl⟩
  | raises e =>
      constructor
      · intro hf
        exact absurd hf Bool.false_ne_true
      · rintro ⟨v, us3, hh⟩
        rw [Prod.mk.injEq] at hh
        exact BodyOutcome.noConfusion hh.1

/-- When the per-patch loop exits early, it does so either through patch
failure — returning 0 with the committed database and the restored
`glove.pg` — or through a resolution fault, with `glove.pg` left pointing
at the migration connection wrapper. -/
lemma migLoop_aborted_world (env : Env) (live : Bool) (committed : Db)
    (dpg : GloveHandle) (l : List Patch) (s : LoopState) (o : MigOutcome)
    (h : migLoop env live committed dpg l s = .aborted o) :
    (o.result = .ok 0 ∧ o.world = { db := committed, glovePg := dpg }) ∨
    (∃ e, o.result = .err e ∧
      o.world = { db := committed, glovePg := .dummy env.connId }) := by
  induction l generalizing s with
  | nil =>
      rw [migLoop] at h
      exact LoopResult.noConfusion h
  | cons p rest ih =>
      cases hc : resolvedContent env.settings p with
      | error e =>
          rw [migLoop_cons_err hc] at h
          injection h with h2
          right
          exact ⟨e, by rw [← h2], by rw [← h2]⟩
      | ok c =>
          by_cases hm : rowFor p c ∈ s.work.ledger
          · rw [migLoop_cons_dup hc hm] at h
            exact ih _ h
          · by_cases hs :
                (run_patch env.connId p p.func.name live
                  s.work.userState).successful = true
            · rw [migLoop_cons_fresh_success hc hm hs] at h
              exact ih _ h
            · rw [migLoop_cons_fresh_fail hc hm
                (Bool.not_eq_true _ ▸ hs)] at h
              injection h with h2
              left
              exact ⟨by rw [← h2], by rw [← h2]⟩

/-- Every `run_migrations` call either restores `glove.pg` to its prior
value, or exits with a propagated resolution fault leaving `glove.pg`
pointing at the migration connection wrapper. -/
lemma run_migrations_glove (env : Env) (patches : List Patch) (live : Bool)
    (w : World) :
    (run_migrations env patches live w).world.glovePg = w.glovePg ∨
    (∃ e, (run_migrations env patches live w).result = .err e ∧
      (run_migrations env patches live w).world.glovePg =
        .dummy env.connId) := by
  unfold run_migrations
  dsimp only
  split
  · left; rfl
  · split
    · left; rfl
    · split
      · rename_i o hm
        rcases migLoop_aborted_world env live w.db w.glovePg _ _ _ hm with
          ⟨h1, h2⟩ | ⟨e, h1, h2⟩
        · left; rw [h2]
        · right; exact ⟨e, h1, by rw [h2]⟩
      · rename_i s hm
        left
        split
        · rfl
        · rfl

/-- A patch naming a SQL section that the settings do not contain. -/
def missingSectionPatch : Patch :=
  { func := noSectionBody, auto_ref := "r", auto_ref_sql_section := "missing" }

/-- A world whose `glove.pg` is a normal pool handle. -/
def pgWorld : World :=
  { db := { migrationsTableExists := false, ledger := [], userState := [] }
    glovePg := .pool 7 }

/-- Claim C9, counterexample: when SQL-section resolution raises, the call
exits with the fault, and `glove.pg` — previously the pool handle — is left
pointing at the migration connection wrapper rather than being restored:
the claimed restoration on every exit path fails at this input. -/
theorem glove_pg_not_restored_cex :
    pgWorld.glovePg = .pool 7 ∧
    (run_migrations env0 [missingSectionPatch] true pgWorld).result =
      .err "SQL section not found: missing" ∧
    (run_migrations env0 [missingSectionPatch] true pgWorld).world.glovePg =
      .dummy 1 :=
  ⟨rfl, rfl, rfl⟩

/-- Claim C9 (amended): `glove.pg` is swapped to the migration transaction's
connection for the duration of the batch and restored to its prior value on
every exit path that returns a count — the no-op fast path, the lock-skip
path, the patch-failure rollback, the live commit and the dry-run rollback;
it is not restored on the path where SQL-section resolution raises, where
it stays on the migration connection wrapper. -/
theorem glove_pg_restored_on_counted_exits (env : Env) (patches : List Patch)
    (live : Bool) (w : World) (n : Nat)
    (h : (run_migrations env patches live w).result = .ok n) :
    (run_migrations env patches live w).world.glovePg = w.glovePg := by
  rcases run_migrations_glove env patches live w with hres | ⟨e, he, _⟩
  · exact hres
  · rw [h] at he
    exact MigResult.noConfusion he

/-- Witness for C9 (amended) at a concrete completed run. -/
theorem glove_pg_restored_witness :
    (run_migrations env0 [okPatch] true w0).world.glovePg = w0.glovePg :=
  glove_pg_restored_on_counted_exits env0 [okPatch] true w0 1 rfl

end Foxglove
